import Mathlib

/-! Shallow embedding of the ScaPyra SCARA robot controller
    (`src/ScaPyra/geometry.py` and `src/ScaPyra/scara.py`) over exact real
    arithmetic.  Numpy float vectors of shape `(2,)` become `ℝ × ℝ`; Python
    `None` results become `Option`; the mutable controller object becomes a
    `SCARAController` record threaded through the functions; `setServoPulse`
    commands are collected in a trace list of `(channel, pulse)` pairs. -/

namespace ScaPyra

/-- Numerical guard used by `find_circle_intersections` (source: `eps = 1e-9`). -/
noncomputable def eps : ℝ := 1e-9

/-- Euclidean distance `np.linalg.norm (p2 - p1)` between two 2-D points. -/
noncomputable def norm2 (p q : ℝ × ℝ) : ℝ :=
  Real.sqrt ((q.1 - p.1) ^ 2 + (q.2 - p.2) ^ 2)

/-- Embedding of `geometry.find_circle_intersections`.  The `(2,)`-shape
    guard of the source is enforced by the type `ℝ × ℝ`; every other branch
    of the source is kept: the distance band and `eps` guard, the
    near-tangency clamp of `h_sq` to `0` when `-1e-9 < h_sq < 0`, and the
    construction of the two points `p3 + offset` (first) and `p3 - offset`
    (second). -/
noncomputable def find_circle_intersections
    (p1 : ℝ × ℝ) (r1 : ℝ) (p2 : ℝ × ℝ) (r2 : ℝ) :
    Option ((ℝ × ℝ) × (ℝ × ℝ)) :=
  let d := norm2 p1 p2
  if d > r1 + r2 ∨ d < |r1 - r2| ∨ d < eps then none
  else
    let a := (r1 ^ 2 - r2 ^ 2 + d ^ 2) / (2 * d)
    let hsq := r1 ^ 2 - a ^ 2
    let build := fun (hsq : ℝ) =>
      let h := Real.sqrt hsq
      let p3 : ℝ × ℝ :=
        (p1.1 + a * (p2.1 - p1.1) / d, p1.2 + a * (p2.2 - p1.2) / d)
      let offset : ℝ × ℝ :=
        (h * (-(p2.2 - p1.2)) / d, h * (p2.1 - p1.1) / d)
      some ((p3.1 + offset.1, p3.2 + offset.2), (p3.1 - offset.1, p3.2 - offset.2))
    if hsq < 0 then
      if hsq > -1e-9 then build 0 else none
    else build hsq

/-- Embedding of `geometry.select_intersection_point`.  The `None` input and
    the non-array / wrong-shape guards of the source map to the `none` case
    of the `Option` argument (the `(2, 2)` shape is enforced by the type);
    `np.argmin` on the x column returns the first index attaining the
    minimum, so the first point wins ties. -/
noncomputable def select_intersection_point
    (intersections : Option ((ℝ × ℝ) × (ℝ × ℝ))) : Option (ℝ × ℝ) :=
  match intersections with
  | none => none
  | some (p, q) => if p.1 ≤ q.1 then some p else some q

/-- Embedding of `geometry.calculate_angle`.  `np.arctan2 dy dx` is the
    argument of the complex number with real part `dx` and imaginary part
    `dy`; `np.degrees` multiplies by `180 / π`; a negative result gets `360`
    added.  The `None`/shape guards of the source are enforced by the types
    and the `isnan` guard cannot fire over `ℝ`. -/
noncomputable def calculate_angle (point intersection : ℝ × ℝ) : Option ℝ :=
  let dx := intersection.1 - point.1
  let dy := intersection.2 - point.2
  let angle := Complex.arg ⟨dx, dy⟩ * 180 / Real.pi
  if angle < 0 then some (angle + 360) else some angle

/-- Python-style floating modulo `a % b` for a positive divisor `b`
    (`a - b * ⌊a / b⌋`, always in `[0, b)` for `b > 0`). -/
noncomputable def realMod (a b : ℝ) : ℝ := a - b * ⌊a / b⌋

/-- Python 3 `round`: round half to even (banker's rounding). -/
noncomputable def roundHalfEven (x : ℝ) : ℤ :=
  if x - ⌊x⌋ < 1 / 2 then ⌊x⌋
  else if 1 / 2 < x - ⌊x⌋ then ⌊x⌋ + 1
  else if 2 ∣ ⌊x⌋ then ⌊x⌋ else ⌊x⌋ + 1

/-- State of `scara.SCARAController`: the constructor arguments stored on
    `self` plus the shoulder pivots `x1, y1, x2, y2` computed in
    `__init__`.  The PWM driver handle and its `setPWMFreq(50)` call are not
    part of the solver state; servo commands are instead returned as traces.
    `x, y` is the mutable TCP position, everything else is configuration. -/
structure SCARAController where
  motor1_channel : ℤ
  motor2_channel : ℤ
  lift_servo_channel : ℤ
  x : ℝ
  y : ℝ
  engine_spacing : ℝ
  arm : ℝ
  forearm : ℝ
  max_angle : ℝ
  min_pulse : ℤ
  max_pulse : ℤ
  motor1_angle_offset : ℝ
  motor2_angle_offset : ℝ
  x1 : ℝ
  y1 : ℝ
  x2 : ℝ
  y2 : ℝ

/-- Embedding of `SCARAController.__init__`: the pivot coordinates are
    derived from `engine_spacing` exactly as in the source
    (`x1 = -engine_spacing/2`, `y1 = -50`, `x2 = engine_spacing/2`,
    `y2 = -50`). -/
noncomputable def SCARAController.init
    (motor1_channel motor2_channel lift_servo_channel : ℤ)
    (x y engine_spacing arm forearm max_angle : ℝ)
    (min_pulse max_pulse : ℤ)
    (motor1_angle_offset motor2_angle_offset : ℝ) : SCARAController :=
  { motor1_channel := motor1_channel
    motor2_channel := motor2_channel
    lift_servo_channel := lift_servo_channel
    x := x
    y := y
    engine_spacing := engine_spacing
    arm := arm
    forearm := forearm
    max_angle := max_angle
    min_pulse := min_pulse
    max_pulse := max_pulse
    motor1_angle_offset := motor1_angle_offset
    motor2_angle_offset := motor2_angle_offset
    x1 := -engine_spacing / 2
    y1 := -50
    x2 := engine_spacing / 2
    y2 := -50 }

/-- Embedding of `SCARAController.angle_to_pulse`.  The two `raise
    ValueError` paths of the source (unknown motor identifier, adjusted
    angle outside `[0, max_angle]`) become `none`; a returned pulse becomes
    `some`. -/
noncomputable def SCARAController.angle_to_pulse
    (c : SCARAController) (angle : ℝ) (motor : String) : Option ℤ :=
  match (if motor = "motor1" then some c.motor1_angle_offset
         else if motor = "motor2" then some c.motor2_angle_offset
         else none) with
  | none => none
  | some angle_offset =>
    let adjusted_angle := realMod (angle - angle_offset) 360
    if ¬ (0 ≤ adjusted_angle ∧ adjusted_angle ≤ c.max_angle) then none
    else
      some (roundHalfEven
        (adjusted_angle / c.max_angle * ((c.max_pulse : ℝ) - (c.min_pulse : ℝ))
          + (c.min_pulse : ℝ)))

/-- Geometry dictionary returned by a successful `flat_move`. -/
structure FlatMoveData where
  x1 : ℝ
  y1 : ℝ
  r1 : ℝ
  x2 : ℝ
  y2 : ℝ
  r2 : ℝ
  x3 : ℝ
  y3 : ℝ
  r3 : ℝ
  intersection1 : ℝ × ℝ
  intersection2 : ℝ × ℝ
  angle1 : ℝ
  angle2 : ℝ

/-- Control-flow outcome of `flat_move`: `rejected` is the source's
    `return None`, `error` is a `ValueError` escaping from
    `angle_to_pulse`, `success` is the returned geometry dictionary. -/
inductive FlatMoveOutcome where
  | rejected : FlatMoveOutcome
  | error : FlatMoveOutcome
  | success : FlatMoveData → FlatMoveOutcome

/-- Embedding of `SCARAController.flat_move`.  Returns the outcome, the
    controller state after the call (`self.x`, `self.y` possibly updated),
    and the trace of `setServoPulse (channel, pulse)` commands issued, in
    order.  The source structure is kept: reject on `target_y < 0`, compute
    both arm intersections with radii `r1 = r2 = self.arm` and `self.forearm`,
    reject when either is `None`, select a point per arm, compute both
    angles, apply the two workspace-band checks, then commit the TCP state
    and only afterwards map angles to pulses, issuing the motor-1 command
    before computing the motor-2 pulse. -/
noncomputable def SCARAController.flat_move
    (c : SCARAController) (target_x target_y : ℝ) :
    FlatMoveOutcome × SCARAController × List (ℤ × ℤ) :=
  if target_y < 0 then (.rejected, c, [])
  else
    let r1 := c.arm
    let r2 := c.arm
    let intersections1 :=
      find_circle_intersections (c.x1, c.y1) r1 (target_x, target_y) c.forearm
    let intersections2 :=
      find_circle_intersections (c.x2, c.y2) r2 (target_x, target_y) c.forearm
    match intersections1, intersections2 with
    | none, _ => (.rejected, c, [])
    | _, none => (.rejected, c, [])
    | some i1, some i2 =>
      match select_intersection_point (some i1),
            select_intersection_point (some i2) with
      | none, _ => (.rejected, c, [])
      | _, none => (.rejected, c, [])
      | some s1, some s2 =>
        match calculate_angle (c.x1, c.y1) s1, calculate_angle (c.x2, c.y2) s2 with
        | none, _ => (.rejected, c, [])
        | _, none => (.rejected, c, [])
        | some angle1, some angle2 =>
          if angle1 < 45 ∨ angle1 > 315 then (.rejected, c, [])
          else if ¬ (angle2 ≤ 135 ∨ angle2 ≥ 225) then (.rejected, c, [])
          else
            let c' := { c with x := target_x, y := target_y }
            match c'.angle_to_pulse angle1 "motor1" with
            | none => (.error, c', [])
            | some pulse1 =>
              match c'.angle_to_pulse angle2 "motor2" with
              | none => (.error, c', [(c'.motor1_channel, pulse1)])
              | some pulse2 =>
                (.success
                  { x1 := c.x1, y1 := c.y1, r1 := r1
                    x2 := c.x2, y2 := c.y2, r2 := r2
                    x3 := target_x, y3 := target_y, r3 := c.forearm
                    intersection1 := s1, intersection2 := s2
                    angle1 := angle1, angle2 := angle2 },
                 c',
                 [(c'.motor1_channel, pulse1), (c'.motor2_channel, pulse2)])

/-- Embedding of `np.linspace start stop num` (1-D, endpoint included):
    `num = 0` gives `[]`, `num = 1` gives `[start]`, otherwise the `num`
    points `start + i * (stop - start) / (num - 1)` for `i = 0, …, num-1`. -/
noncomputable def linspace (start stop : ℝ) (num : ℕ) : List ℝ :=
  if num = 0 then []
  else if num = 1 then [start]
  else (List.range num).map (fun (i : ℕ) => start + (i : ℝ) * (stop - start) / ((num : ℝ) - 1))

/-- Waypoint list of `interpolated_flat_move`: the elementwise zip of
    `np.linspace self.x target_x steps` and `np.linspace self.y target_y steps`. -/
noncomputable def SCARAController.waypoints
    (c : SCARAController) (target_x target_y : ℝ) (steps : ℕ) : List (ℝ × ℝ) :=
  (linspace c.x target_x steps).zip (linspace c.y target_y steps)

/-- Control-flow outcome of `interpolated_flat_move`: `success` is
    `return True`, `failed` is `return False` after a waypoint move returned
    `None`, and `errored` is a `ValueError` escaping from a waypoint's
    `flat_move`. -/
inductive InterpOutcome where
  | success : InterpOutcome
  | failed : InterpOutcome
  | errored : InterpOutcome

/-- Loop body of `interpolated_flat_move`: run `flat_move` on each waypoint
    in order, stopping at the first `None` (returning `False`) or the first
    escaping `ValueError`, and returning `True` when the list is exhausted.
    The state is threaded, and the issued servo commands accumulate.
    The `time.sleep delay` between waypoints has no observable effect in the
    model and is omitted. -/
noncomputable def SCARAController.run_waypoints
    (c : SCARAController) : List (ℝ × ℝ) → InterpOutcome × SCARAController × List (ℤ × ℤ)
  | [] => (.success, c, [])
  | p :: rest =>
    match c.flat_move p.1 p.2 with
    | (.rejected, c', cmds) => (.failed, c', cmds)
    | (.error, c', cmds) => (.errored, c', cmds)
    | (.success _, c', cmds) =>
      let r := c'.run_waypoints rest
      (r.1, r.2.1, cmds ++ r.2.2)

/-- Embedding of `SCARAController.interpolated_flat_move` (the source's
    default step count is `steps = 10`, `delay` is behaviourally inert). -/
noncomputable def SCARAController.interpolated_flat_move
    (c : SCARAController) (target_x target_y : ℝ) (steps : ℕ) :
    InterpOutcome × SCARAController × List (ℤ × ℤ) :=
  c.run_waypoints (c.waypoints target_x target_y steps)

/-- Demonstration controller: vertically stacked pivots `(0, 0)` and
    `(0, 20)` with `arm = forearm = 5`, identity pulse calibration
    `min_pulse = 0`, `max_pulse = 270`, `max_angle = 270`, offsets `0` / `214`,
    current TCP `(0, 10)`. -/
noncomputable def cDemo : SCARAController :=
  { motor1_channel := 0
    motor2_channel := 1
    lift_servo_channel := 2
    x := 0
    y := 10
    engine_spacing := 0
    arm := 5
    forearm := 5
    max_angle := 270
    min_pulse := 0
    max_pulse := 270
    motor1_angle_offset := 0
    motor2_angle_offset := 214
    x1 := 0
    y1 := 0
    x2 := 0
    y2 := 20 }

/-- Variant of `cDemo` whose `max_angle = 45` makes `angle_to_pulse` fail on
    the kinematically valid angle `90`. -/
noncomputable def cClamp : SCARAController := { cDemo with max_angle := 45 }

/-- Variant of `cDemo` with the second pivot at `(10, 10)`; the target
    `(10, 0)` then yields `angle1 = 0`, violating the arm-1 workspace band. -/
noncomputable def cTangent : SCARAController := { cDemo with x2 := 10, y2 := 10 }

/-- Variant of `cDemo` whose current TCP has `y = -1`, so re-commanding the
    current position is rejected. -/
noncomputable def cNegY : SCARAController := { cDemo with y := -1 }

/-! Arithmetic helper lemmas. -/

lemma sqrt_val {x y : ℝ} (hy : 0 ≤ y) (h : y ^ 2 = x) : Real.sqrt x = y := by
  rw [← h, Real.sqrt_sq hy]

lemma realMod_eq_fract (a b : ℝ) (hb : b ≠ 0) :
    realMod a b = b * Int.fract (a / b) := by
  unfold realMod Int.fract
  field_simp

lemma realMod_nonneg (a b : ℝ) (hb : 0 < b) : 0 ≤ realMod a b := by
  rw [realMod_eq_fract a b hb.ne']
  exact mul_nonneg hb.le (Int.fract_nonneg _)

lemma realMod_lt (a b : ℝ) (hb : 0 < b) : realMod a b < b := by
  rw [realMod_eq_fract a b hb.ne']
  calc b * Int.fract (a / b) < b * 1 :=
        (mul_lt_mul_left hb).mpr (Int.fract_lt_one _)
    _ = b := mul_one b

lemma realMod_eq_self {a b : ℝ} (h0 : 0 ≤ a) (hab : a < b) : realMod a b = a := by
  have hb : 0 < b := lt_of_le_of_lt h0 hab
  have hfz : ⌊a / b⌋ = 0 := by
    rw [Int.floor_eq_zero_iff]
    exact ⟨div_nonneg h0 hb.le, (div_lt_one hb).mpr hab⟩
  unfold realMod
  rw [hfz]
  simp

lemma roundHalfEven_intCast (n : ℤ) : roundHalfEven (n : ℝ) = n := by
  unfold roundHalfEven
  rw [Int.floor_intCast]
  norm_num

lemma le_roundHalfEven (x : ℝ) : ⌊x⌋ ≤ roundHalfEven x := by
  unfold roundHalfEven
  split_ifs <;> omega

lemma roundHalfEven_le (x : ℝ) : roundHalfEven x ≤ ⌊x⌋ + 1 := by
  unfold roundHalfEven
  split_ifs <;> omega

lemma roundHalfEven_mono {x y : ℝ} (h : x ≤ y) :
    roundHalfEven x ≤ roundHalfEven y := by
  have hf : ⌊x⌋ ≤ ⌊y⌋ := Int.floor_mono h
  rcases eq_or_lt_of_le hf with heq | hlt
  · unfold roundHalfEven
    rw [← heq]
    have hc : (⌊x⌋ : ℝ) = (⌊y⌋ : ℝ) := by exact_mod_cast heq
    split_ifs <;> (try omega) <;> linarith [hc]
  · calc roundHalfEven x ≤ ⌊x⌋ + 1 := roundHalfEven_le x
      _ ≤ ⌊y⌋ := by omega
      _ ≤ roundHalfEven y := le_roundHalfEven y

/-! Concrete evaluations of the geometry pipeline. -/

lemma fc_piv1_demo :
    find_circle_intersections (0 : ℝ × ℝ) 5 ((0 : ℝ), (10 : ℝ)) 5 =
      some (((0 : ℝ), (5 : ℝ)), ((0 : ℝ), (5 : ℝ))) := by
  have hd : norm2 (0 : ℝ × ℝ) ((0 : ℝ), (10 : ℝ)) = 10 :=
    sqrt_val (by norm_num) (by norm_num [norm2])
  simp only [find_circle_intersections, hd]
  norm_num [eps, Real.sqrt_zero]

lemma fc_piv2_demo :
    find_circle_intersections ((0 : ℝ), (20 : ℝ)) 5 ((0 : ℝ), (10 : ℝ)) 5 =
      some (((0 : ℝ), (15 : ℝ)), ((0 : ℝ), (15 : ℝ))) := by
  have hd : norm2 ((0 : ℝ), (20 : ℝ)) ((0 : ℝ), (10 : ℝ)) = 10 :=
    sqrt_val (by norm_num) (by norm_num [norm2])
  simp only [find_circle_intersections, hd]
  norm_num [eps, Real.sqrt_zero]

lemma fc_piv1_tangent :
    find_circle_intersections (0 : ℝ × ℝ) 5 ((10 : ℝ), (0 : ℝ)) 5 =
      some (((5 : ℝ), (0 : ℝ)), ((5 : ℝ), (0 : ℝ))) := by
  have hd : norm2 (0 : ℝ × ℝ) ((10 : ℝ), (0 : ℝ)) = 10 :=
    sqrt_val (by norm_num) (by norm_num [norm2])
  simp only [find_circle_intersections, hd]
  norm_num [eps, Real.sqrt_zero]

lemma fc_piv2_tangent :
    find_circle_intersections ((10 : ℝ), (10 : ℝ)) 5 ((10 : ℝ), (0 : ℝ)) 5 =
      some (((10 : ℝ), (5 : ℝ)), ((10 : ℝ), (5 : ℝ))) := by
  have hd : norm2 ((10 : ℝ), (10 : ℝ)) ((10 : ℝ), (0 : ℝ)) = 10 :=
    sqrt_val (by norm_num) (by norm_num [norm2])
  simp only [find_circle_intersections, hd]
  norm_num [eps, Real.sqrt_zero]

lemma fc_symmetric :
    find_circle_intersections (0 : ℝ × ℝ) 5 ((6 : ℝ), (0 : ℝ)) 5 =
      some (((3 : ℝ), (4 : ℝ)), ((3 : ℝ), (-4 : ℝ))) := by
  have hd : norm2 (0 : ℝ × ℝ) ((6 : ℝ), (0 : ℝ)) = 6 :=
    sqrt_val (by norm_num) (by norm_num [norm2])
  have h16 : Real.sqrt 16 = 4 := sqrt_val (by norm_num) (by norm_num)
  simp only [find_circle_intersections, hd]
  norm_num [eps, h16]

lemma ca_up_demo :
    calculate_angle (0 : ℝ × ℝ) ((0 : ℝ), (5 : ℝ)) = some 90 := by
  have harg : Complex.arg ⟨(0 : ℝ), (5 : ℝ)⟩ = Real.pi / 2 := by
    apply Complex.arg_eq_pi_div_two_iff.mpr
    exact ⟨by norm_num, by norm_num⟩
  have hval : Real.pi / 2 * 180 / Real.pi = 90 := by
    field_simp
    ring
  simp only [calculate_angle]
  norm_num
  rw [harg, hval]
  norm_num

lemma ca_down_demo :
    calculate_angle ((0 : ℝ), (20 : ℝ)) ((0 : ℝ), (15 : ℝ)) = some 270 := by
  have harg : Complex.arg ⟨(0 : ℝ), (-5 : ℝ)⟩ = -(Real.pi / 2) := by
    apply Complex.arg_eq_neg_pi_div_two_iff.mpr
    exact ⟨by norm_num, by norm_num⟩
  have hval : -(Real.pi / 2) * 180 / Real.pi = -90 := by
    field_simp
    ring
  simp only [calculate_angle]
  norm_num
  rw [harg, hval]
  norm_num

lemma ca_right_tangent :
    calculate_angle (0 : ℝ × ℝ) ((5 : ℝ), (0 : ℝ)) = some 0 := by
  have hmk : (⟨(5 : ℝ), (0 : ℝ)⟩ : ℂ) = (((5 : ℝ) : ℝ) : ℂ) := by
    rw [Complex.ofReal_def]
  have harg : Complex.arg ⟨(5 : ℝ), (0 : ℝ)⟩ = 0 := by
    rw [hmk]
    exact Complex.arg_ofReal_of_nonneg (by norm_num)
  simp only [calculate_angle]
  norm_num
  rw [harg]
  norm_num

lemma ca_down_tangent :
    calculate_angle ((10 : ℝ), (10 : ℝ)) ((10 : ℝ), (5 : ℝ)) = some 270 := by
  have harg : Complex.arg ⟨(0 : ℝ), (-5 : ℝ)⟩ = -(Real.pi / 2) := by
    apply Complex.arg_eq_neg_pi_div_two_iff.mpr
    exact ⟨by norm_num, by norm_num⟩
  have hval : -(Real.pi / 2) * 180 / Real.pi = -90 := by
    field_simp
    ring
  simp only [calculate_angle]
  norm_num
  rw [harg, hval]
  norm_num

/-! Reduction lemmas for `angle_to_pulse` and concrete controller runs. -/

lemma roundHalfEven_eq_intCast {x : ℝ} (n : ℤ) (h : x = (n : ℝ)) :
    roundHalfEven x = n := by
  rw [h, roundHalfEven_intCast]

lemma angle_to_pulse_motor1 (c : SCARAController) (angle : ℝ) :
    c.angle_to_pulse angle "motor1" =
      (if ¬ (0 ≤ realMod (angle - c.motor1_angle_offset) 360 ∧
             realMod (angle - c.motor1_angle_offset) 360 ≤ c.max_angle) then none
       else some (roundHalfEven
         (realMod (angle - c.motor1_angle_offset) 360 / c.max_angle *
           ((c.max_pulse : ℝ) - (c.min_pulse : ℝ)) + (c.min_pulse : ℝ)))) := rfl

lemma angle_to_pulse_motor2 (c : SCARAController) (angle : ℝ) :
    c.angle_to_pulse angle "motor2" =
      (if ¬ (0 ≤ realMod (angle - c.motor2_angle_offset) 360 ∧
             realMod (angle - c.motor2_angle_offset) 360 ≤ c.max_angle) then none
       else some (roundHalfEven
         (realMod (angle - c.motor2_angle_offset) 360 / c.max_angle *
           ((c.max_pulse : ℝ) - (c.min_pulse : ℝ)) + (c.min_pulse : ℝ)))) := rfl

lemma angle_to_pulse_other (c : SCARAController) (angle : ℝ) (motor : String)
    (h1 : motor ≠ "motor1") (h2 : motor ≠ "motor2") :
    c.angle_to_pulse angle motor = none := by
  simp only [SCARAController.angle_to_pulse]
  rw [if_neg h1, if_neg h2]

lemma atp_demo_m1 : cDemo.angle_to_pulse 90 "motor1" = some 90 := by
  have hm90 : realMod (90 : ℝ) 360 = 90 := realMod_eq_self (by norm_num) (by norm_num)
  have r90 : roundHalfEven (90 : ℝ) = 90 := roundHalfEven_eq_intCast 90 (by norm_num)
  rw [angle_to_pulse_motor1]
  simp only [cDemo]
  norm_num [hm90, r90]

lemma atp_demo_m2 : cDemo.angle_to_pulse 270 "motor2" = some 56 := by
  have hm56 : realMod (56 : ℝ) 360 = 56 := realMod_eq_self (by norm_num) (by norm_num)
  have r56 : roundHalfEven (56 : ℝ) = 56 := roundHalfEven_eq_intCast 56 (by norm_num)
  rw [angle_to_pulse_motor2]
  simp only [cDemo]
  norm_num [hm56, r56]

lemma atp_clamp_m1 : cClamp.angle_to_pulse 90 "motor1" = none := by
  have hm90 : realMod (90 : ℝ) 360 = 90 := realMod_eq_self (by norm_num) (by norm_num)
  rw [angle_to_pulse_motor1]
  simp only [cClamp, cDemo]
  norm_num [hm90]

lemma flat_move_demo :
    cDemo.flat_move 0 10 =
      (.success
        { x1 := 0, y1 := 0, r1 := 5, x2 := 0, y2 := 20, r2 := 5
          x3 := 0, y3 := 10, r3 := 5
          intersection1 := (0, 5), intersection2 := (0, 15)
          angle1 := 90, angle2 := 270 },
        cDemo, [(0, 90), (1, 56)]) := by
  have hm90 : realMod (90 : ℝ) 360 = 90 := realMod_eq_self (by norm_num) (by norm_num)
  have hm56 : realMod (56 : ℝ) 360 = 56 := realMod_eq_self (by norm_num) (by norm_num)
  have r90 : roundHalfEven (90 : ℝ) = 90 := roundHalfEven_eq_intCast 90 (by norm_num)
  have r56 : roundHalfEven (56 : ℝ) = 56 := roundHalfEven_eq_intCast 56 (by norm_num)
  simp only [SCARAController.flat_move, cDemo]
  norm_num [fc_piv1_demo, fc_piv2_demo, select_intersection_point,
    ca_up_demo, ca_down_demo, angle_to_pulse_motor1, angle_to_pulse_motor2,
    hm90, hm56, r90, r56]

lemma flat_move_clamp :
    cClamp.flat_move 0 10 = (.error, cClamp, []) := by
  have hm90 : realMod (90 : ℝ) 360 = 90 := realMod_eq_self (by norm_num) (by norm_num)
  simp only [SCARAController.flat_move, cClamp, cDemo]
  norm_num [fc_piv1_demo, fc_piv2_demo, select_intersection_point,
    ca_up_demo, ca_down_demo, angle_to_pulse_motor1, hm90]

lemma flat_move_tangent :
    cTangent.flat_move 10 0 = (.rejected, cTangent, []) := by
  simp only [SCARAController.flat_move, cTangent, cDemo]
  norm_num [fc_piv1_tangent, fc_piv2_tangent, select_intersection_point,
    ca_right_tangent, ca_down_tangent]

/-! Structural lemmas about `flat_move`, `run_waypoints` and `linspace`. -/

lemma flat_move_rejected_state {c : SCARAController} {tx ty : ℝ}
    {st : SCARAController} {cmds : List (ℤ × ℤ)}
    (h : c.flat_move tx ty = (.rejected, st, cmds)) : st = c ∧ cmds = [] := by
  simp only [SCARAController.flat_move] at h
  repeat' split at h
  all_goals simp only [Prod.mk.injEq] at h
  all_goals first
    | exact ⟨h.2.1.symm, h.2.2.symm⟩
    | simp at h

lemma flat_move_error_state {c : SCARAController} {tx ty : ℝ}
    {st : SCARAController} {cmds : List (ℤ × ℤ)}
    (h : c.flat_move tx ty = (.error, st, cmds)) :
    st = { c with x := tx, y := ty } := by
  simp only [SCARAController.flat_move] at h
  repeat' split at h
  all_goals simp only [Prod.mk.injEq] at h
  all_goals first
    | exact h.2.1.symm
    | simp at h

lemma flat_move_neg_y {c : SCARAController} {tx ty : ℝ} (hy : ty < 0) :
    c.flat_move tx ty = (.rejected, c, []) := by
  simp only [SCARAController.flat_move]
  rw [if_pos hy]

lemma flat_move_no_intersection {c : SCARAController} {tx ty : ℝ}
    (h : find_circle_intersections (c.x1, c.y1) c.arm (tx, ty) c.forearm = none ∨
         find_circle_intersections (c.x2, c.y2) c.arm (tx, ty) c.forearm = none) :
    c.flat_move tx ty = (.rejected, c, []) := by
  simp only [SCARAController.flat_move]
  by_cases hy : ty < 0
  · rw [if_pos hy]
  · rw [if_neg hy]
    rcases h1 : find_circle_intersections (c.x1, c.y1) c.arm (tx, ty) c.forearm with _ | i1
    · simp
    · rcases h2 : find_circle_intersections (c.x2, c.y2) c.arm (tx, ty) c.forearm with _ | i2
      · simp
      · rcases h with h | h
        · rw [h1] at h
          exact absurd h (by simp)
        · rw [h2] at h
          exact absurd h (by simp)

lemma flat_move_not_rejected_spec {c : SCARAController} {tx ty : ℝ}
    {o : FlatMoveOutcome} {st : SCARAController} {cmds : List (ℤ × ℤ)}
    (h : c.flat_move tx ty = (o, st, cmds)) (ho : o ≠ .rejected) :
    0 ≤ ty ∧ ∃ i1 i2 s1 s2 a1 a2,
      find_circle_intersections (c.x1, c.y1) c.arm (tx, ty) c.forearm = some i1 ∧
      find_circle_intersections (c.x2, c.y2) c.arm (tx, ty) c.forearm = some i2 ∧
      select_intersection_point (some i1) = some s1 ∧
      select_intersection_point (some i2) = some s2 ∧
      calculate_angle (c.x1, c.y1) s1 = some a1 ∧
      calculate_angle (c.x2, c.y2) s2 = some a2 ∧
      45 ≤ a1 ∧ a1 ≤ 315 ∧ (a2 ≤ 135 ∨ 225 ≤ a2) := by
  simp only [SCARAController.flat_move] at h
  by_cases hy : ty < 0
  · rw [if_pos hy] at h
    simp only [Prod.mk.injEq] at h
    exact absurd h.1.symm ho
  · rw [if_neg hy] at h
    refine ⟨le_of_not_lt hy, ?_⟩
    rcases h1 : find_circle_intersections (c.x1, c.y1) c.arm (tx, ty) c.forearm with _ | i1
    · rw [h1] at h
      simp only [Prod.mk.injEq] at h
      exact absurd h.1.symm ho
    rcases h2 : find_circle_intersections (c.x2, c.y2) c.arm (tx, ty) c.forearm with _ | i2
    · rw [h1, h2] at h
      simp only [Prod.mk.injEq] at h
      exact absurd h.1.symm ho
    rw [h1, h2] at h
    simp only [] at h
    rcases h3 : select_intersection_point (some i1) with _ | s1
    · rw [h3] at h
      simp only [Prod.mk.injEq] at h
      exact absurd h.1.symm ho
    rcases h4 : select_intersection_point (some i2) with _ | s2
    · rw [h3, h4] at h
      simp only [Prod.mk.injEq] at h
      exact absurd h.1.symm ho
    rw [h3, h4] at h
    simp only [] at h
    rcases h5 : calculate_angle (c.x1, c.y1) s1 with _ | a1
    · rw [h5] at h
      simp only [Prod.mk.injEq] at h
      exact absurd h.1.symm ho
    rcases h6 : calculate_angle (c.x2, c.y2) s2 with _ | a2
    · rw [h5, h6] at h
      simp only [Prod.mk.injEq] at h
      exact absurd h.1.symm ho
    rw [h5, h6] at h
    simp only [] at h
    by_cases hb1 : a1 < 45 ∨ a1 > 315
    · rw [if_pos hb1] at h
      simp only [Prod.mk.injEq] at h
      exact absurd h.1.symm ho
    · rw [if_neg hb1] at h
      by_cases hb2 : ¬ (a2 ≤ 135 ∨ a2 ≥ 225)
      · rw [if_pos hb2] at h
        simp only [Prod.mk.injEq] at h
        exact absurd h.1.symm ho
      · push_neg at hb1
        rw [not_not] at hb2
        exact ⟨i1, i2, s1, s2, a1, a2, rfl, rfl, h3, h4, h5, h6,
          hb1.1, hb1.2, hb2⟩

lemma flat_move_band_violation {c : SCARAController} {tx ty : ℝ}
    {i1 i2 : (ℝ × ℝ) × (ℝ × ℝ)} {s1 s2 : ℝ × ℝ} {a1 a2 : ℝ}
    (h1 : find_circle_intersections (c.x1, c.y1) c.arm (tx, ty) c.forearm = some i1)
    (h2 : find_circle_intersections (c.x2, c.y2) c.arm (tx, ty) c.forearm = some i2)
    (h3 : select_intersection_point (some i1) = some s1)
    (h4 : select_intersection_point (some i2) = some s2)
    (h5 : calculate_angle (c.x1, c.y1) s1 = some a1)
    (h6 : calculate_angle (c.x2, c.y2) s2 = some a2)
    (hviol : a1 < 45 ∨ a1 > 315 ∨ (135 < a2 ∧ a2 < 225)) :
    c.flat_move tx ty = (.rejected, c, []) := by
  simp only [SCARAController.flat_move]
  by_cases hy : ty < 0
  · rw [if_pos hy]
  · rw [if_neg hy, h1, h2]
    simp only []
    rw [h3, h4]
    simp only []
    rw [h5, h6]
    simp only []
    by_cases hb1 : a1 < 45 ∨ a1 > 315
    · rw [if_pos hb1]
    · rw [if_neg hb1]
      rcases hviol with v | v | v
      · exact absurd (Or.inl v) hb1
      · exact absurd (Or.inr v) hb1
      · have hc : ¬ (a2 ≤ 135 ∨ a2 ≥ 225) := by
          rintro (hle | hge)
          · linarith [v.1]
          · linarith [v.2]
        rw [if_pos hc]

lemma run_waypoints_nil (c : SCARAController) :
    c.run_waypoints [] = (.success, c, []) := rfl

lemma run_waypoints_cons_rejected {c : SCARAController} {p : ℝ × ℝ}
    {rest : List (ℝ × ℝ)} {st : SCARAController} {cmds : List (ℤ × ℤ)}
    (h : c.flat_move p.1 p.2 = (.rejected, st, cmds)) :
    c.run_waypoints (p :: rest) = (.failed, st, cmds) := by
  simp only [SCARAController.run_waypoints]
  rw [h]

lemma run_waypoints_cons_error {c : SCARAController} {p : ℝ × ℝ}
    {rest : List (ℝ × ℝ)} {st : SCARAController} {cmds : List (ℤ × ℤ)}
    (h : c.flat_move p.1 p.2 = (.error, st, cmds)) :
    c.run_waypoints (p :: rest) = (.errored, st, cmds) := by
  simp only [SCARAController.run_waypoints]
  rw [h]

lemma run_waypoints_cons_success {c : SCARAController} {p : ℝ × ℝ}
    {rest : List (ℝ × ℝ)} {d : FlatMoveData} {st : SCARAController}
    {cmds : List (ℤ × ℤ)} (h : c.flat_move p.1 p.2 = (.success d, st, cmds)) :
    c.run_waypoints (p :: rest) =
      ((st.run_waypoints rest).1, (st.run_waypoints rest).2.1,
        cmds ++ (st.run_waypoints rest).2.2) := by
  simp only [SCARAController.run_waypoints]
  rw [h]

lemma linspace_length (s t : ℝ) (n : ℕ) : (linspace s t n).length = n := by
  unfold linspace
  split_ifs with h0 h1
  · simp [h0]
  · simp [h1]
  · rw [List.length_map, List.length_range]

lemma linspace_getElem (s t : ℝ) (n : ℕ) (hn : 2 ≤ n) (i : ℕ) (hi : i < n) :
    (linspace s t n)[i]? = some (s + (i : ℝ) * (t - s) / ((n : ℝ) - 1)) := by
  unfold linspace
  rw [if_neg (by omega), if_neg (by omega)]
  rw [List.getElem?_map, List.getElem?_range hi]
  rfl

lemma linspace_head (s t : ℝ) (n : ℕ) (hn : 1 ≤ n) :
    (linspace s t n).head? = some s := by
  rcases eq_or_lt_of_le hn with h1 | h2
  · rw [← h1]
    rfl
  · have h2' : 2 ≤ n := h2
    have := linspace_getElem s t n h2' 0 (by omega)
    rw [List.head?_eq_getElem?]
    rw [this]
    norm_num

lemma linspace_getLast (s t : ℝ) (n : ℕ) (hn : 2 ≤ n) :
    (linspace s t n).getLast? = some t := by
  rw [List.getLast?_eq_getElem?, linspace_length,
    linspace_getElem s t n hn (n - 1) (by omega)]
  have hne : ((n : ℝ) - 1) ≠ 0 := by
    have : (2 : ℝ) ≤ (n : ℝ) := by exact_mod_cast hn
    linarith
  have hcast : ((n - 1 : ℕ) : ℝ) = (n : ℝ) - 1 := by
    have : 1 ≤ n := by omega
    push_cast [this]
    ring
  rw [hcast]
  field_simp

/-! Solvability band of the circle-intersection solver. -/

lemma find_circle_isSome_iff (p1 : ℝ × ℝ) (r1 : ℝ) (p2 : ℝ × ℝ) (r2 : ℝ) :
    (find_circle_intersections p1 r1 p2 r2).isSome = true ↔
      (|r1 - r2| ≤ norm2 p1 p2 ∧ norm2 p1 p2 ≤ r1 + r2 ∧ eps ≤ norm2 p1 p2) := by
  simp only [find_circle_intersections]
  set d := norm2 p1 p2 with hd
  by_cases hcond : d > r1 + r2 ∨ d < |r1 - r2| ∨ d < eps
  · rw [if_pos hcond]
    simp only [Option.isSome_none, Bool.false_eq_true, false_iff]
    rintro ⟨hA, hB, hC⟩
    rcases hcond with h | h | h
    · linarith
    · linarith
    · linarith
  · rw [if_neg hcond]
    push_neg at hcond
    obtain ⟨hB, hA, hC⟩ := hcond
    have heps : (0 : ℝ) < eps := by norm_num [eps]
    have hd0 : 0 < d := lt_of_lt_of_le heps hC
    have habs := abs_le.mp hA
    have hkey : 0 ≤ r1 ^ 2 - ((r1 ^ 2 - r2 ^ 2 + d ^ 2) / (2 * d)) ^ 2 := by
      have hexp : r1 ^ 2 - ((r1 ^ 2 - r2 ^ 2 + d ^ 2) / (2 * d)) ^ 2 =
          ((d + r1 - r2) * (d + r2 - r1)) * ((r1 + r2 - d) * (r1 + r2 + d)) /
            (4 * d ^ 2) := by
        field_simp
        ring
      rw [hexp]
      apply div_nonneg
      · apply mul_nonneg
        · apply mul_nonneg <;> linarith [habs.1, habs.2]
        · apply mul_nonneg <;> linarith
      · positivity
    rw [if_neg (not_lt.mpr hkey)]
    simp only [Option.isSome_some, true_iff]
    exact ⟨hA, hB, hC⟩

lemma find_circle_neg_radius (p1 : ℝ × ℝ) (r1 : ℝ) (p2 : ℝ × ℝ) (r2 : ℝ)
    (h : r1 < 0 ∨ r2 < 0) : find_circle_intersections p1 r1 p2 r2 = none := by
  by_contra hne
  have hs : (find_circle_intersections p1 r1 p2 r2).isSome = true :=
    Option.ne_none_iff_isSome.mp hne
  rw [find_circle_isSome_iff] at hs
  have hband : |r1 - r2| ≤ r1 + r2 := le_trans hs.1 hs.2.1
  have habs := abs_le.mp hband
  rcases h with h | h
  · linarith [habs.1]
  · linarith [habs.2]

/-! Disambiguator and angle-calculator characterisations. -/

lemma select_some_left {p q : ℝ × ℝ} (h : p.1 ≤ q.1) :
    select_intersection_point (some (p, q)) = some p := by
  simp only [select_intersection_point]
  rw [if_pos h]

lemma select_some_right {p q : ℝ × ℝ} (h : q.1 < p.1) :
    select_intersection_point (some (p, q)) = some q := by
  simp only [select_intersection_point]
  rw [if_neg (not_le.mpr h)]

lemma calculate_angle_range (p q : ℝ × ℝ) :
    ∃ a, calculate_angle p q = some a ∧ 0 ≤ a ∧ a < 360 ∧
      (a = Complex.arg ⟨q.1 - p.1, q.2 - p.2⟩ * 180 / Real.pi ∨
       a = Complex.arg ⟨q.1 - p.1, q.2 - p.2⟩ * 180 / Real.pi + 360) := by
  simp only [calculate_angle]
  have hπ := Real.pi_pos
  have h1 : Complex.arg ⟨q.1 - p.1, q.2 - p.2⟩ ≤ Real.pi := Complex.arg_le_pi _
  have h2 : -Real.pi < Complex.arg ⟨q.1 - p.1, q.2 - p.2⟩ := Complex.neg_pi_lt_arg _
  have hub : Complex.arg ⟨q.1 - p.1, q.2 - p.2⟩ * 180 / Real.pi ≤ 180 := by
    rw [div_le_iff₀ hπ]
    linarith
  have hlb : -180 < Complex.arg ⟨q.1 - p.1, q.2 - p.2⟩ * 180 / Real.pi := by
    rw [lt_div_iff₀ hπ]
    linarith
  by_cases hneg : Complex.arg ⟨q.1 - p.1, q.2 - p.2⟩ * 180 / Real.pi < 0
  · rw [if_pos hneg]
    exact ⟨_, rfl, by linarith, by linarith, Or.inr rfl⟩
  · rw [if_neg hneg]
    exact ⟨_, rfl, le_of_not_lt hneg, by linarith, Or.inl rfl⟩

lemma ca_east : calculate_angle ((0 : ℝ), (0 : ℝ)) ((1 : ℝ), (0 : ℝ)) = some 0 := by
  have hmk : (⟨(1 : ℝ), (0 : ℝ)⟩ : ℂ) = (((1 : ℝ) : ℝ) : ℂ) := by
    rw [Complex.ofReal_def]
  have harg : Complex.arg ⟨(1 : ℝ), (0 : ℝ)⟩ = 0 := by
    rw [hmk]
    exact Complex.arg_ofReal_of_nonneg (by norm_num)
  simp only [calculate_angle]
  norm_num
  rw [harg]
  norm_num

lemma ca_north : calculate_angle ((0 : ℝ), (0 : ℝ)) ((0 : ℝ), (1 : ℝ)) = some 90 := by
  have harg : Complex.arg ⟨(0 : ℝ), (1 : ℝ)⟩ = Real.pi / 2 := by
    apply Complex.arg_eq_pi_div_two_iff.mpr
    exact ⟨by norm_num, by norm_num⟩
  have hval : Real.pi / 2 * 180 / Real.pi = 90 := by
    field_simp
    ring
  simp only [calculate_angle]
  norm_num
  rw [harg, hval]
  norm_num

lemma ca_west : calculate_angle ((0 : ℝ), (0 : ℝ)) ((-1 : ℝ), (0 : ℝ)) = some 180 := by
  have hmk : (⟨(-1 : ℝ), (0 : ℝ)⟩ : ℂ) = (((-1 : ℝ) : ℝ) : ℂ) := by
    rw [Complex.ofReal_def]
  have harg : Complex.arg ⟨(-1 : ℝ), (0 : ℝ)⟩ = Real.pi := by
    rw [hmk]
    exact Complex.arg_ofReal_of_neg (by norm_num)
  have hval : Real.pi * 180 / Real.pi = 180 := by
    field_simp
  simp only [calculate_angle]
  norm_num
  rw [harg, hval]
  norm_num

lemma ca_south : calculate_angle ((0 : ℝ), (0 : ℝ)) ((0 : ℝ), (-1 : ℝ)) = some 270 := by
  have harg : Complex.arg ⟨(0 : ℝ), (-1 : ℝ)⟩ = -(Real.pi / 2) := by
    apply Complex.arg_eq_neg_pi_div_two_iff.mpr
    exact ⟨by norm_num, by norm_num⟩
  have hval : -(Real.pi / 2) * 180 / Real.pi = -90 := by
    field_simp
    ring
  simp only [calculate_angle]
  norm_num
  rw [harg, hval]
  norm_num

/-! Monotonicity and endpoint exactness of the angle-to-pulse mapping. -/

lemma angle_to_pulse_spec_aux (c : SCARAController) (motor : String) (off : ℝ)
    (hm : (motor = "motor1" ∧ off = c.motor1_angle_offset) ∨
          (motor = "motor2" ∧ off = c.motor2_angle_offset))
    (hmax : 0 < c.max_angle) (a b : ℝ)
    (hab : realMod (a - off) 360 ≤ realMod (b - off) 360)
    (hbm : realMod (b - off) 360 ≤ c.max_angle) :
    ∃ pa pb : ℤ,
      c.angle_to_pulse a motor = some pa ∧
      c.angle_to_pulse b motor = some pb ∧
      (c.min_pulse ≤ c.max_pulse → pa ≤ pb) ∧
      (c.max_pulse ≤ c.min_pulse → pb ≤ pa) ∧
      (realMod (a - off) 360 = 0 → pa = c.min_pulse) ∧
      (realMod (b - off) 360 = c.max_angle → pb = c.max_pulse) := by
  have ha0 : 0 ≤ realMod (a - off) 360 := realMod_nonneg _ _ (by norm_num)
  have hb0 : 0 ≤ realMod (b - off) 360 := realMod_nonneg _ _ (by norm_num)
  have ham : realMod (a - off) 360 ≤ c.max_angle := le_trans hab hbm
  have hred : ∀ x : ℝ, c.angle_to_pulse x motor =
      (if ¬ (0 ≤ realMod (x - off) 360 ∧ realMod (x - off) 360 ≤ c.max_angle)
       then none
       else some (roundHalfEven (realMod (x - off) 360 / c.max_angle *
         ((c.max_pulse : ℝ) - (c.min_pulse : ℝ)) + (c.min_pulse : ℝ)))) := by
    intro x
    rcases hm with ⟨h1, h2⟩ | ⟨h1, h2⟩
    · rw [h1, h2]
      exact angle_to_pulse_motor1 c x
    · rw [h1, h2]
      exact angle_to_pulse_motor2 c x
  refine ⟨roundHalfEven (realMod (a - off) 360 / c.max_angle *
      ((c.max_pulse : ℝ) - (c.min_pulse : ℝ)) + (c.min_pulse : ℝ)),
    roundHalfEven (realMod (b - off) 360 / c.max_angle *
      ((c.max_pulse : ℝ) - (c.min_pulse : ℝ)) + (c.min_pulse : ℝ)),
    ?_, ?_, ?_, ?_, ?_, ?_⟩
  · rw [hred a, if_neg (not_not_intro ⟨ha0, ham⟩)]
  · rw [hred b, if_neg (not_not_intro ⟨hb0, hbm⟩)]
  · intro hle
    apply roundHalfEven_mono
    have hcast : ((c.min_pulse : ℝ)) ≤ ((c.max_pulse : ℝ)) := Int.cast_le.mpr hle
    have h1 : realMod (a - off) 360 / c.max_angle ≤
        realMod (b - off) 360 / c.max_angle := by
      apply div_le_div_of_nonneg_right ?_ hmax.le
      exact hab
    exact add_le_add_right
      (mul_le_mul_of_nonneg_right h1 (sub_nonneg.mpr hcast)) _
  · intro hle
    apply roundHalfEven_mono
    have hcast : ((c.max_pulse : ℝ)) ≤ ((c.min_pulse : ℝ)) := Int.cast_le.mpr hle
    have h1 : realMod (a - off) 360 / c.max_angle ≤
        realMod (b - off) 360 / c.max_angle := by
      apply div_le_div_of_nonneg_right ?_ hmax.le
      exact hab
    exact add_le_add_right
      (mul_le_mul_of_nonpos_right h1 (sub_nonpos.mpr hcast)) _
  · intro h0
    rw [h0, zero_div, zero_mul, zero_add, roundHalfEven_intCast]
  · intro hM
    rw [hM, div_self (ne_of_gt hmax), one_mul, sub_add_cancel,
      roundHalfEven_intCast]

/-! Waypoint-list and sequencer lemmas. -/

lemma flat_move_success_state {c : SCARAController} {tx ty : ℝ}
    {d : FlatMoveData} {st : SCARAController} {cmds : List (ℤ × ℤ)}
    (h : c.flat_move tx ty = (.success d, st, cmds)) :
    st = { c with x := tx, y := ty } := by
  simp only [SCARAController.flat_move] at h
  repeat' split at h
  all_goals simp only [Prod.mk.injEq] at h
  all_goals first
    | exact h.2.1.symm
    | simp at h

lemma angle_to_pulse_motor1_none_iff (c : SCARAController) (a : ℝ) :
    c.angle_to_pulse a "motor1" = none ↔
      ¬ (0 ≤ realMod (a - c.motor1_angle_offset) 360 ∧
         realMod (a - c.motor1_angle_offset) 360 ≤ c.max_angle) := by
  rw [angle_to_pulse_motor1]
  by_cases h : ¬ (0 ≤ realMod (a - c.motor1_angle_offset) 360 ∧
      realMod (a - c.motor1_angle_offset) 360 ≤ c.max_angle)
  · rw [if_pos h]
    exact iff_of_true rfl h
  · rw [if_neg h]
    exact iff_of_false (by simp) h

lemma angle_to_pulse_motor2_none_iff (c : SCARAController) (a : ℝ) :
    c.angle_to_pulse a "motor2" = none ↔
      ¬ (0 ≤ realMod (a - c.motor2_angle_offset) 360 ∧
         realMod (a - c.motor2_angle_offset) 360 ≤ c.max_angle) := by
  rw [angle_to_pulse_motor2]
  by_cases h : ¬ (0 ≤ realMod (a - c.motor2_angle_offset) 360 ∧
      realMod (a - c.motor2_angle_offset) 360 ≤ c.max_angle)
  · rw [if_pos h]
    exact iff_of_true rfl h
  · rw [if_neg h]
    exact iff_of_false (by simp) h

lemma waypoints_one (c : SCARAController) (tx ty : ℝ) :
    c.waypoints tx ty 1 = [(c.x, c.y)] := by
  unfold SCARAController.waypoints linspace
  norm_num

lemma waypoints_head (c : SCARAController) (tx ty : ℝ) (n : ℕ) (hn : 1 ≤ n) :
    (c.waypoints tx ty n).head? = some (c.x, c.y) := by
  unfold SCARAController.waypoints
  have h1 := linspace_head c.x tx n hn
  have h2 := linspace_head c.y ty n hn
  rcases l1 : linspace c.x tx n with _ | ⟨a, r1⟩
  · rw [l1] at h1
    simp at h1
  · rcases l2 : linspace c.y ty n with _ | ⟨b, r2⟩
    · rw [l2] at h2
      simp at h2
    · rw [l1] at h1
      rw [l2] at h2
      simp only [List.head?_cons, Option.some.injEq] at h1 h2
      simp [List.zip_cons_cons, h1, h2]

lemma waypoints_getLast (c : SCARAController) (tx ty : ℝ) (n : ℕ) (hn : 2 ≤ n) :
    (c.waypoints tx ty n).getLast? = some (tx, ty) := by
  unfold SCARAController.waypoints
  rw [List.getLast?_eq_getElem?]
  have hlen : ((linspace c.x tx n).zip (linspace c.y ty n)).length = n := by
    rw [List.length_zip, linspace_length, linspace_length]
    exact Nat.min_self n
  rw [hlen]
  apply (List.getElem?_zip_eq_some).mpr
  constructor
  · have h := linspace_getLast c.x tx n hn
    rw [List.getLast?_eq_getElem?, linspace_length] at h
    exact h
  · have h := linspace_getLast c.y ty n hn
    rw [List.getLast?_eq_getElem?, linspace_length] at h
    exact h

lemma waypoints_length (c : SCARAController) (tx ty : ℝ) (n : ℕ) :
    (c.waypoints tx ty n).length = n := by
  unfold SCARAController.waypoints
  rw [List.length_zip, linspace_length, linspace_length]
  exact Nat.min_self n

lemma interp_demo_one :
    cDemo.interpolated_flat_move 1000 1000 1 =
      (.success, cDemo, [(0, 90), (1, 56)]) := by
  unfold SCARAController.interpolated_flat_move
  rw [waypoints_one]
  have hp : ((cDemo.x, cDemo.y) : ℝ × ℝ) = ((0 : ℝ), (10 : ℝ)) := rfl
  rw [hp]
  rw [run_waypoints_cons_success flat_move_demo]
  rw [run_waypoints_nil]
  simp

lemma interp_negY_one :
    cNegY.interpolated_flat_move 5 5 1 = (.failed, cNegY, []) := by
  unfold SCARAController.interpolated_flat_move
  rw [waypoints_one]
  have hp : ((cNegY.x, cNegY.y) : ℝ × ℝ) = ((0 : ℝ), (-1 : ℝ)) := rfl
  rw [hp]
  rw [run_waypoints_cons_rejected (flat_move_neg_y (by norm_num))]

/-! Claim theorems. -/

/-- C1 (amended): `find_circle_intersections` returns an intersection pair
    iff `|r1 − r2| ≤ d ≤ r1 + r2` and `d ≥ eps = 1e-9` (not merely `d > 0`:
    centers closer than the epsilon guard are rejected), where `d` is the
    Euclidean distance between the centers; in particular every input with a
    negative radius yields `none` because the band is then empty. -/
theorem find_circle_intersections_solution_band
    (p1 : ℝ × ℝ) (r1 : ℝ) (p2 : ℝ × ℝ) (r2 : ℝ) :
    ((find_circle_intersections p1 r1 p2 r2).isSome = true ↔
      (|r1 - r2| ≤ norm2 p1 p2 ∧ norm2 p1 p2 ≤ r1 + r2 ∧ eps ≤ norm2 p1 p2)) ∧
    ((r1 < 0 ∨ r2 < 0) → find_circle_intersections p1 r1 p2 r2 = none) :=
  ⟨find_circle_isSome_iff p1 r1 p2 r2, find_circle_neg_radius p1 r1 p2 r2⟩

/-- C1 witness: for circles `(0,0), r=5` and `(6,0), r=5` the band holds and
    an intersection pair is returned; a negative radius `r1 = -1` yields
    `none`. -/
theorem find_circle_intersections_solution_band_witness :
    (find_circle_intersections ((0 : ℝ), (0 : ℝ)) 5 ((6 : ℝ), (0 : ℝ)) 5).isSome
        = true ∧
    find_circle_intersections ((0 : ℝ), (0 : ℝ)) (-1) ((6 : ℝ), (0 : ℝ)) 5
        = none := by
  have hd : norm2 ((0 : ℝ), (0 : ℝ)) ((6 : ℝ), (0 : ℝ)) = 6 :=
    sqrt_val (by norm_num) (by norm_num [norm2])
  constructor
  · apply (find_circle_intersections_solution_band
      ((0 : ℝ), (0 : ℝ)) 5 ((6 : ℝ), (0 : ℝ)) 5).1.mpr
    rw [hd]
    norm_num [eps]
  · exact (find_circle_intersections_solution_band
      ((0 : ℝ), (0 : ℝ)) (-1) ((6 : ℝ), (0 : ℝ)) 5).2 (Or.inl (by norm_num))

/-- C1 counterexample to the claim as stated: centers `(0,0)` and
    `(1/10^10, 0)` with radii `1` and `1` satisfy `|r1 − r2| ≤ d ≤ r1 + r2`
    and `d > 0`, yet the function returns `none` (the `d < 1e-9` epsilon
    guard fires). -/
theorem find_circle_intersections_claim_cex :
    0 < norm2 ((0 : ℝ), (0 : ℝ)) ((1 / 10 ^ 10 : ℝ), (0 : ℝ)) ∧
    |(1 : ℝ) - 1| ≤ norm2 ((0 : ℝ), (0 : ℝ)) ((1 / 10 ^ 10 : ℝ), (0 : ℝ)) ∧
    norm2 ((0 : ℝ), (0 : ℝ)) ((1 / 10 ^ 10 : ℝ), (0 : ℝ)) ≤ 1 + 1 ∧
    find_circle_intersections ((0 : ℝ), (0 : ℝ)) 1 ((1 / 10 ^ 10 : ℝ), (0 : ℝ)) 1
      = none := by
  have hd : norm2 ((0 : ℝ), (0 : ℝ)) ((1 / 10 ^ 10 : ℝ), (0 : ℝ)) = 1 / 10 ^ 10 :=
    sqrt_val (by norm_num) (by norm_num [norm2])
  refine ⟨by rw [hd]; norm_num, by rw [hd]; norm_num, by rw [hd]; norm_num, ?_⟩
  simp only [find_circle_intersections, hd]
  rw [if_pos (Or.inr (Or.inr (by norm_num [eps])))]

/-- C2: whenever `flat_move` rejects (returns `None`), the TCP state is left
    unchanged and no `setServoPulse` command is issued; moreover a negative
    target `y` or a missing circle intersection for either arm does reject
    with exactly that outcome (and never raises). -/
theorem flat_move_rejection_leaves_state :
    (∀ (c : SCARAController) (tx ty : ℝ) (st : SCARAController)
        (cmds : List (ℤ × ℤ)),
        c.flat_move tx ty = (.rejected, st, cmds) → st = c ∧ cmds = []) ∧
    (∀ (c : SCARAController) (tx ty : ℝ), ty < 0 →
        c.flat_move tx ty = (.rejected, c, [])) ∧
    (∀ (c : SCARAController) (tx ty : ℝ),
        (find_circle_intersections (c.x1, c.y1) c.arm (tx, ty) c.forearm = none ∨
         find_circle_intersections (c.x2, c.y2) c.arm (tx, ty) c.forearm = none) →
        c.flat_move tx ty = (.rejected, c, [])) :=
  ⟨fun _ _ _ _ _ h => flat_move_rejected_state h,
   fun _ _ _ hy => flat_move_neg_y hy,
   fun _ _ _ h => flat_move_no_intersection h⟩

/-- C2 witness: moving the demo controller to `(0, -1)` is rejected with the
    state unchanged and no commands. -/
theorem flat_move_rejection_leaves_state_witness :
    cDemo.flat_move 0 (-1) = (.rejected, cDemo, []) :=
  flat_move_rejection_leaves_state.2.1 cDemo 0 (-1) (by norm_num)

/-- C3: when `flat_move` ends in a mapping error the TCP state has already
    been committed to the target, and `angle_to_pulse` fails exactly when
    the adjusted angle `(angle - offset) mod 360` falls outside
    `[0, max_angle]` or the motor identifier is neither `"motor1"` nor
    `"motor2"`. -/
theorem flat_move_commit_before_mapping :
    (∀ (c : SCARAController) (tx ty : ℝ) (st : SCARAController)
        (cmds : List (ℤ × ℤ)),
        c.flat_move tx ty = (.error, st, cmds) → st.x = tx ∧ st.y = ty) ∧
    (∀ (c : SCARAController) (a : ℝ),
        c.angle_to_pulse a "motor1" = none ↔
          ¬ (0 ≤ realMod (a - c.motor1_angle_offset) 360 ∧
             realMod (a - c.motor1_angle_offset) 360 ≤ c.max_angle)) ∧
    (∀ (c : SCARAController) (a : ℝ),
        c.angle_to_pulse a "motor2" = none ↔
          ¬ (0 ≤ realMod (a - c.motor2_angle_offset) 360 ∧
             realMod (a - c.motor2_angle_offset) 360 ≤ c.max_angle)) ∧
    (∀ (c : SCARAController) (a : ℝ) (motor : String),
        motor ≠ "motor1" → motor ≠ "motor2" →
        c.angle_to_pulse a motor = none) := by
  refine ⟨?_, angle_to_pulse_motor1_none_iff, angle_to_pulse_motor2_none_iff, ?_⟩
  · intro c tx ty st cmds h
    have hst := flat_move_error_state h
    exact ⟨by rw [hst], by rw [hst]⟩
  · intro c a motor h1 h2
    exact angle_to_pulse_other c a motor h1 h2

/-- C3 witness: the clamped controller (`max_angle = 45`) reaches an
    actuation error on target `(0, 10)` with the TCP already committed. -/
theorem flat_move_commit_before_mapping_witness :
    cClamp.x = (0 : ℝ) ∧ cClamp.y = (10 : ℝ) :=
  flat_move_commit_before_mapping.1 cClamp 0 10 cClamp [] flat_move_clamp

/-- C4: `flat_move` proceeds past validation only when arm 1's angle lies in
    `[45, 315]` and arm 2's angle is not strictly inside `(135, 225)`;
    conversely, whenever the computed angles violate either band the move is
    rejected, with the state unchanged and no commands. -/
theorem flat_move_workspace_bands :
    (∀ (c : SCARAController) (tx ty : ℝ) (o : FlatMoveOutcome)
        (st : SCARAController) (cmds : List (ℤ × ℤ)),
        c.flat_move tx ty = (o, st, cmds) → o ≠ .rejected →
        0 ≤ ty ∧ ∃ i1 i2 s1 s2 a1 a2,
          find_circle_intersections (c.x1, c.y1) c.arm (tx, ty) c.forearm
            = some i1 ∧
          find_circle_intersections (c.x2, c.y2) c.arm (tx, ty) c.forearm
            = some i2 ∧
          select_intersection_point (some i1) = some s1 ∧
          select_intersection_point (some i2) = some s2 ∧
          calculate_angle (c.x1, c.y1) s1 = some a1 ∧
          calculate_angle (c.x2, c.y2) s2 = some a2 ∧
          45 ≤ a1 ∧ a1 ≤ 315 ∧ (a2 ≤ 135 ∨ 225 ≤ a2)) ∧
    (∀ (c : SCARAController) (tx ty : ℝ) (i1 i2 : (ℝ × ℝ) × (ℝ × ℝ))
        (s1 s2 : ℝ × ℝ) (a1 a2 : ℝ),
        find_circle_intersections (c.x1, c.y1) c.arm (tx, ty) c.forearm
          = some i1 →
        find_circle_intersections (c.x2, c.y2) c.arm (tx, ty) c.forearm
          = some i2 →
        select_intersection_point (some i1) = some s1 →
        select_intersection_point (some i2) = some s2 →
        calculate_angle (c.x1, c.y1) s1 = some a1 →
        calculate_angle (c.x2, c.y2) s2 = some a2 →
        (a1 < 45 ∨ a1 > 315 ∨ (135 < a2 ∧ a2 < 225)) →
        c.flat_move tx ty = (.rejected, c, [])) :=
  ⟨fun _ _ _ _ _ _ h ho => flat_move_not_rejected_spec h ho,
   fun _ _ _ _ _ _ _ _ _ h1 h2 h3 h4 h5 h6 hv =>
     flat_move_band_violation h1 h2 h3 h4 h5 h6 hv⟩

/-- C4 witness: the tangent controller computes `angle1 = 0`, violating the
    arm-1 band, and the move to `(10, 0)` is rejected. -/
theorem flat_move_workspace_bands_witness :
    cTangent.flat_move 10 0 = (.rejected, cTangent, []) :=
  flat_move_workspace_bands.2 cTangent 10 0 _ _ _ _ _ _
    fc_piv1_tangent fc_piv2_tangent (select_some_left (by norm_num))
    (select_some_left (by norm_num)) ca_right_tangent ca_down_tangent
    (Or.inl (by norm_num))

/-- C5: in the externally tangent case with centers `(0,0)` and `(10,0)` and
    radii `5` and `5` (so `d = r1 + r2 = 10` exactly), the solver returns a
    degenerate pair with both points exactly `(5, 0)` (hence within `1e-6`),
    rather than `none`. -/
theorem find_circle_intersections_tangent_case :
    find_circle_intersections ((0 : ℝ), (0 : ℝ)) 5 ((10 : ℝ), (0 : ℝ)) 5 =
      some (((5 : ℝ), (0 : ℝ)), ((5 : ℝ), (0 : ℝ))) :=
  fc_piv1_tangent

/-- C6: the disambiguator returns the point with the smaller x-coordinate
    and the first point of the pair on ties; `none` input gives `none` (the
    non-`(2,2)`-array guards of the source are enforced by the embedding's
    types, and the function is total, so it never raises). -/
theorem select_intersection_point_spec :
    (∀ p q : ℝ × ℝ,
      (p.1 ≤ q.1 → select_intersection_point (some (p, q)) = some p) ∧
      (q.1 < p.1 → select_intersection_point (some (p, q)) = some q)) ∧
    select_intersection_point none = none :=
  ⟨fun _ _ => ⟨fun h => select_some_left h, fun h => select_some_right h⟩, rfl⟩

/-- C6 witness: the pair `{(4,1), (4,-5)}` has equal x-coordinates and the
    first point `(4,1)` is selected. -/
theorem select_intersection_point_spec_witness :
    select_intersection_point (some (((4 : ℝ), (1 : ℝ)), ((4 : ℝ), (-5 : ℝ))))
      = some ((4 : ℝ), (1 : ℝ)) :=
  (select_intersection_point_spec.1 (4, 1) (4, -5)).1 (by norm_num)

/-- C7: `calculate_angle` always returns the degree conversion of
    `atan2 (Δy) (Δx)` with `360` added when negative — hence a value in
    `[0, 360)` — and the four axis bearings from `(0,0)` are `0°`, `90°`,
    `180°` and `270°`. -/
theorem calculate_angle_spec :
    (∀ p q : ℝ × ℝ, ∃ a, calculate_angle p q = some a ∧ 0 ≤ a ∧ a < 360 ∧
        (a = Complex.arg ⟨q.1 - p.1, q.2 - p.2⟩ * 180 / Real.pi ∨
         a = Complex.arg ⟨q.1 - p.1, q.2 - p.2⟩ * 180 / Real.pi + 360)) ∧
    calculate_angle ((0 : ℝ), (0 : ℝ)) ((1 : ℝ), (0 : ℝ)) = some 0 ∧
    calculate_angle ((0 : ℝ), (0 : ℝ)) ((0 : ℝ), (1 : ℝ)) = some 90 ∧
    calculate_angle ((0 : ℝ), (0 : ℝ)) ((-1 : ℝ), (0 : ℝ)) = some 180 ∧
    calculate_angle ((0 : ℝ), (0 : ℝ)) ((0 : ℝ), (-1 : ℝ)) = some 270 :=
  ⟨calculate_angle_range, ca_east, ca_north, ca_west, ca_south⟩

/-- C8: over adjusted angles in `[0, max_angle]`, `angle_to_pulse` is
    monotone (non-decreasing when `min_pulse ≤ max_pulse`, non-increasing
    when inverted — inverted calibration is accepted, not an error) and
    exact at the endpoints: adjusted angle `0` maps to `min_pulse` and
    adjusted angle `max_angle` maps to `max_pulse`. -/
theorem angle_to_pulse_monotone_exact (c : SCARAController) (motor : String)
    (off : ℝ)
    (hm : (motor = "motor1" ∧ off = c.motor1_angle_offset) ∨
          (motor = "motor2" ∧ off = c.motor2_angle_offset))
    (hmax : 0 < c.max_angle) (a b : ℝ)
    (hab : realMod (a - off) 360 ≤ realMod (b - off) 360)
    (hbm : realMod (b - off) 360 ≤ c.max_angle) :
    ∃ pa pb : ℤ,
      c.angle_to_pulse a motor = some pa ∧
      c.angle_to_pulse b motor = some pb ∧
      (c.min_pulse ≤ c.max_pulse → pa ≤ pb) ∧
      (c.max_pulse ≤ c.min_pulse → pb ≤ pa) ∧
      (realMod (a - off) 360 = 0 → pa = c.min_pulse) ∧
      (realMod (b - off) 360 = c.max_angle → pb = c.max_pulse) :=
  angle_to_pulse_spec_aux c motor off hm hmax a b hab hbm

/-- C8 witness: for the demo controller's motor 1 (offset `0`,
    `max_angle = 270`), the angles `0` and `270` are both mapped, the
    mapping applies at the endpoints. -/
theorem angle_to_pulse_monotone_exact_witness :
    ∃ pa pb : ℤ,
      cDemo.angle_to_pulse 0 "motor1" = some pa ∧
      cDemo.angle_to_pulse 270 "motor1" = some pb ∧
      (cDemo.min_pulse ≤ cDemo.max_pulse → pa ≤ pb) ∧
      (cDemo.max_pulse ≤ cDemo.min_pulse → pb ≤ pa) ∧
      (realMod ((0 : ℝ) - 0) 360 = 0 → pa = cDemo.min_pulse) ∧
      (realMod ((270 : ℝ) - 0) 360 = cDemo.max_angle → pb = cDemo.max_pulse) := by
  have h0 : realMod ((0 : ℝ) - 0) 360 = 0 := by
    rw [show (0 : ℝ) - 0 = 0 by norm_num]
    exact realMod_eq_self le_rfl (by norm_num)
  have h270 : realMod ((270 : ℝ) - 0) 360 = 270 := by
    rw [show (270 : ℝ) - 0 = 270 by norm_num]
    exact realMod_eq_self (by norm_num) (by norm_num)
  exact angle_to_pulse_monotone_exact cDemo "motor1" 0 (Or.inl ⟨rfl, rfl⟩)
    (show (0 : ℝ) < 270 by norm_num) 0 270
    (by rw [h0, h270]; norm_num)
    (show realMod ((270 : ℝ) - 0) 360 ≤ (270 : ℝ) by rw [h270])

/-- C9 (amended): for `steps ≥ 2` the sequencer generates exactly `steps`
    evenly spaced waypoints ending at the target, runs `flat_move` on each
    waypoint in order, stops at the first rejected waypoint returning
    failure with the TCP left at the last committed waypoint and no
    rollback, and returns success when every waypoint succeeds; with
    `steps = 1` the sole waypoint is the current TCP, not the target. -/
theorem interpolated_flat_move_spec :
    (∀ (s t : ℝ) (n : ℕ), 2 ≤ n →
        (linspace s t n).length = n ∧
        (∀ i : ℕ, i < n → (linspace s t n)[i]? =
          some (s + (i : ℝ) * (t - s) / ((n : ℝ) - 1))) ∧
        (linspace s t n).getLast? = some t) ∧
    (∀ (c : SCARAController) (tx ty : ℝ) (n : ℕ),
        c.interpolated_flat_move tx ty n = c.run_waypoints (c.waypoints tx ty n)) ∧
    (∀ (c : SCARAController) (tx ty : ℝ) (n : ℕ),
        (c.waypoints tx ty n).length = n) ∧
    (∀ (c : SCARAController) (tx ty : ℝ) (n : ℕ), 2 ≤ n →
        (c.waypoints tx ty n).getLast? = some (tx, ty)) ∧
    (∀ c : SCARAController, c.run_waypoints [] = (.success, c, [])) ∧
    (∀ (c : SCARAController) (p : ℝ × ℝ) (rest : List (ℝ × ℝ))
        (st : SCARAController) (cmds : List (ℤ × ℤ)),
        c.flat_move p.1 p.2 = (.rejected, st, cmds) →
        c.run_waypoints (p :: rest) = (.failed, c, [])) ∧
    (∀ (c : SCARAController) (p : ℝ × ℝ) (rest : List (ℝ × ℝ))
        (d : FlatMoveData) (st : SCARAController) (cmds : List (ℤ × ℤ)),
        c.flat_move p.1 p.2 = (.success d, st, cmds) →
        c.run_waypoints (p :: rest) =
          ((st.run_waypoints rest).1, (st.run_waypoints rest).2.1,
            cmds ++ (st.run_waypoints rest).2.2)) := by
  refine ⟨?_, fun _ _ _ _ => rfl, fun c tx ty n => waypoints_length c tx ty n,
    fun c tx ty n hn => waypoints_getLast c tx ty n hn,
    run_waypoints_nil, ?_, ?_⟩
  · intro s t n hn
    exact ⟨linspace_length s t n,
      fun i hi => linspace_getElem s t n hn i hi,
      linspace_getLast s t n hn⟩
  · intro c p rest st cmds h
    obtain ⟨h1, h2⟩ := flat_move_rejected_state h
    rw [run_waypoints_cons_rejected h, h1, h2]
  · intro c p rest d st cmds h
    exact run_waypoints_cons_success h

/-- C9 witness: from `(0, 10)` with `steps = 2` towards `(0, 10)` itself the
    linspace facts hold at a concrete instance. -/
theorem interpolated_flat_move_spec_witness :
    (linspace (0 : ℝ) 10 2).length = 2 ∧
    (∀ i : ℕ, i < 2 → (linspace (0 : ℝ) 10 2)[i]? =
      some (0 + (i : ℝ) * (10 - 0) / (((2 : ℕ) : ℝ) - 1))) ∧
    (linspace (0 : ℝ) 10 2).getLast? = some 10 :=
  interpolated_flat_move_spec.1 0 10 2 (by norm_num)

/-- C9 counterexample to the claim as stated: with `steps = 1` and target
    `(1000, 1000)` (far from the TCP `(0, 10)`), the interpolated move
    returns full success yet the TCP never reaches the target — the target
    is not the final waypoint, contradicting "the target as the final
    waypoint" for every steps count. -/
theorem interpolated_flat_move_steps_one_cex :
    cDemo.interpolated_flat_move 1000 1000 1 =
      (.success, cDemo, [(0, 90), (1, 56)]) ∧
    cDemo.x ≠ 1000 ∧ cDemo.y ≠ 1000 :=
  ⟨interp_demo_one, by norm_num [cDemo], by norm_num [cDemo]⟩

/-- C10 (amended): for `steps ≥ 1` the first waypoint is the current TCP
    itself; with `steps = 1` the only waypoint is the current position, the
    target is never commanded, and the call returns success exactly when
    re-commanding the current position succeeds (failure when it is
    rejected). -/
theorem interpolated_first_waypoint_spec :
    (∀ (c : SCARAController) (tx ty : ℝ) (n : ℕ), 1 ≤ n →
        (c.waypoints tx ty n).head? = some (c.x, c.y)) ∧
    (∀ (c : SCARAController) (tx ty : ℝ), c.waypoints tx ty 1 = [(c.x, c.y)]) ∧
    (∀ (c : SCARAController) (tx ty : ℝ) (d : FlatMoveData)
        (st : SCARAController) (cmds : List (ℤ × ℤ)),
        c.flat_move c.x c.y = (.success d, st, cmds) →
        c.interpolated_flat_move tx ty 1 = (.success, st, cmds) ∧
          st.x = c.x ∧ st.y = c.y) ∧
    (∀ (c : SCARAController) (tx ty : ℝ) (st : SCARAController)
        (cmds : List (ℤ × ℤ)),
        c.flat_move c.x c.y = (.rejected, st, cmds) →
        c.interpolated_flat_move tx ty 1 = (.failed, c, [])) := by
  refine ⟨fun c tx ty n hn => waypoints_head c tx ty n hn,
    fun c tx ty => waypoints_one c tx ty, ?_, ?_⟩
  · intro c tx ty d st cmds h
    have he : c.interpolated_flat_move tx ty 1 = c.run_waypoints [(c.x, c.y)] := by
      unfold SCARAController.interpolated_flat_move
      rw [waypoints_one]
    have hst := flat_move_success_state h
    refine ⟨?_, by rw [hst], by rw [hst]⟩
    rw [he, run_waypoints_cons_success h, run_waypoints_nil]
    simp
  · intro c tx ty st cmds h
    have he : c.interpolated_flat_move tx ty 1 = c.run_waypoints [(c.x, c.y)] := by
      unfold SCARAController.interpolated_flat_move
      rw [waypoints_one]
    obtain ⟨h1, h2⟩ := flat_move_rejected_state h
    rw [he, run_waypoints_cons_rejected h, h1, h2]

/-- C10 witness: for the demo controller the first waypoint of any
    interpolation with `steps = 1` is the current TCP `(0, 10)`. -/
theorem interpolated_first_waypoint_spec_witness :
    (cDemo.waypoints 1 1 1).head? = some (cDemo.x, cDemo.y) :=
  interpolated_first_waypoint_spec.1 cDemo 1 1 1 (by norm_num)

/-- C10 counterexample to the claim as stated: a controller whose current
    TCP has `y = -1` re-validates its own position at `steps = 1` and the
    move is rejected, so the call returns failure, not success. -/
theorem interpolated_steps_one_not_success_cex :
    cNegY.interpolated_flat_move 5 5 1 = (.failed, cNegY, []) ∧
    InterpOutcome.failed ≠ InterpOutcome.success :=
  ⟨interp_negY_one, by simp⟩

end ScaPyra
